import Mathlib

/-!
GMT/Python wrapper — verification of the documented behaviour

The repository documents a thin Python layer (`gmt` package) over the GMT
mapping toolkit: a `Figure` class whose methods (`pscoast`, `psxy`,
`psbasemap`, `psconvert`, `savefig`, `show`) translate keyword arguments into
GMT command-line flags and forward them to the external toolkit, plus
module-level functions operating on an implicit current figure.  The wrapper
itself is described by the specification and the two tutorial notebooks; we
embed it here and prove the documented properties.
-/

namespace Gmt

/-- Modelled from the spec: the argument values the wrapper accepts —
"plain key-value argument maps (string, number, list, or boolean values)". -/
inductive Value where
  | str : String → Value
  | num : Int → Value
  | list : List Int → Value
  | boolean : Bool → Value
deriving DecidableEq, Repr

/-- Slash-separated rendering of a list value, e.g. `[-90, -70, 0, 20]`
becomes the string "-90", "-70", "0", "20" joined by slashes. -/
def renderList (xs : List Int) : String :=
  String.intercalate "/" (xs.map toString)

/-- Modelled from the spec: translation of one keyword value into the GMT
command-line flag syntax.  A string, number or list is appended to the flag;
`True` yields the bare flag (like `-P`); `False` drops the flag. -/
def buildFlag (flag : String) (v : Value) : Option String :=
  match v with
  | .str s => some ("-" ++ flag ++ s)
  | .num n => some ("-" ++ flag ++ toString n)
  | .list xs => some ("-" ++ flag ++ renderList xs)
  | .boolean b => if b then some ("-" ++ flag) else none

/-- Modelled from the spec: the long-form alias dictionary — "long-form
aliases for the command-line options", pairing aliases such as `region`,
`projection`, `land`, `frame`, `pen`, `columns` with the single-letter GMT
flags `R`, `J`, `G`, `B`, `W`, `i`, and the `psconvert` aliases used in the
notebooks. -/
def aliases : List (String × String) :=
  [("region", "R"), ("projection", "J"), ("land", "G"), ("frame", "B"),
   ("pen", "W"), ("columns", "i"), ("prefix", "F"), ("fmt", "T"),
   ("portrait", "P")]

/-- Resolve a keyword to its single-letter GMT flag: aliased keywords map
through the dictionary, any other keyword is already the flag itself. -/
def resolveFlag (key : String) : String :=
  (aliases.lookup key).getD key

/-- Translate one keyword argument into its command-line flag string. -/
def translateArg (key : String) (v : Value) : Option String :=
  buildFlag (resolveFlag key) v

/-- Translate a whole argument map into the command-line flag list. -/
def translateArgs (args : List (String × Value)) : List String :=
  args.filterMap (fun kv => translateArg kv.1 kv.2)

/-- One invocation of an external GMT module: the module name and the
translated command-line flags passed to it. -/
structure Invocation where
  module : String
  flags : List String
deriving DecidableEq, Repr

/-- Modelled from the spec: a figure handle — "a lightweight reference
accumulating a sequence of drawing-command invocations to forward to the
mapping toolkit". -/
structure Figure where
  commands : List Invocation
deriving DecidableEq, Repr

/-- A freshly created figure (`gmt.Figure()`): no accumulated commands. -/
def Figure.new : Figure := ⟨[]⟩

/-- Generic wrapper method: append one invocation of the named external
module, its arguments translated to flags, to the figure's command list. -/
def Figure.callModule (fig : Figure) (m : String) (args : List (String × Value)) :
    Figure :=
  ⟨fig.commands ++ [⟨m, translateArgs args⟩]⟩

/-- `fig.pscoast(...)`: plot coastlines — a direct pass-through to the
external `pscoast` module. -/
def Figure.pscoast (fig : Figure) (args : List (String × Value)) : Figure :=
  fig.callModule "pscoast" args

/-- `fig.psxy(...)`: plot point data — a direct pass-through to the external
`psxy` module. -/
def Figure.psxy (fig : Figure) (args : List (String × Value)) : Figure :=
  fig.callModule "psxy" args

/-- `fig.psbasemap(...)`: draw a basemap — a direct pass-through to the
external `psbasemap` module. -/
def Figure.psbasemap (fig : Figure) (args : List (String × Value)) : Figure :=
  fig.callModule "psbasemap" args

/-- The sequence of drawing-command invocations a figure forwards to the
mapping toolkit: exactly its accumulated command list, verbatim. -/
def Figure.forward (fig : Figure) : List Invocation :=
  fig.commands

/-- A drawing-method call on a figure handle (the GMT `ps*` layer modules). -/
inductive DrawCall where
  | pscoast (args : List (String × Value))
  | psxy (args : List (String × Value))
  | psbasemap (args : List (String × Value))
deriving DecidableEq, Repr

/-- The external-toolkit invocation a drawing call translates to. -/
def DrawCall.invocation : DrawCall → Invocation
  | .pscoast args => ⟨"pscoast", translateArgs args⟩
  | .psxy args => ⟨"psxy", translateArgs args⟩
  | .psbasemap args => ⟨"psbasemap", translateArgs args⟩

/-- Apply one drawing call to a figure handle. -/
def Figure.applyCall (fig : Figure) : DrawCall → Figure
  | .pscoast args => fig.pscoast args
  | .psxy args => fig.psxy args
  | .psbasemap args => fig.psbasemap args

/-- Apply a sequence of drawing calls to a figure handle, in order. -/
def Figure.applyAll (fig : Figure) (calls : List DrawCall) : Figure :=
  calls.foldl Figure.applyCall fig

/-! ## Output conversion (`psconvert` and `savefig`) -/

/-- Modelled from the spec: the output format codes of `psconvert` used in the
notebooks — format code `f` means a PDF, format code `g` means a PNG. -/
def fmtExtension (fmt : String) : Option String :=
  if fmt = "f" then some ".pdf"
  else if fmt = "g" then some ".png"
  else none

/-- The output file `psconvert` writes for a given name stem and format code:
the stem with the extension the format determines. -/
def psconvertOutput (stem fmt : String) : Option String :=
  (fmtExtension fmt).map (fun ext => stem ++ ext)

/-- Look up the value given for a single-letter flag in an argument map,
accepting either the flag itself or its long-form alias as the keyword. -/
def lookupFlag (args : List (String × Value)) (flag : String) : Option Value :=
  (args.find? (fun kv => resolveFlag kv.1 == flag)).map Prod.snd

/-- The output file a `psconvert` call produces, read off its arguments:
the name stem comes from `F` (alias `prefix`), the format from `T`
(alias `fmt`). -/
def psconvertFile (args : List (String × Value)) : Option String :=
  match lookupFlag args "F", lookupFlag args "T" with
  | some (.str stem), some (.str fmt) => psconvertOutput stem fmt
  | _, _ => none

/-- `fig.psconvert(...)`: forward the accumulated drawing commands followed by
the `psconvert` invocation to the toolkit, and produce the output file. -/
def Figure.psconvert (fig : Figure) (args : List (String × Value)) :
    List Invocation × Option String :=
  (fig.commands ++ [⟨"psconvert", translateArgs args⟩], psconvertFile args)

/-- Split a file name at its last dot into stem and extension. -/
def splitAtDot : List Char → Option (List Char × List Char)
  | [] => none
  | c :: rest =>
    if c = '.' then some ([], rest)
    else (splitAtDot rest).map (fun p => (c :: p.1, p.2))

/-- Split a file name into (stem, extension), taking the last dot, or `none`
when the name has no extension. -/
def splitExt (fname : String) : Option (String × String) :=
  (splitAtDot fname.data.reverse).map
    (fun p => (String.mk p.2.reverse, String.mk p.1.reverse))

/-- Modelled from the spec: `savefig` derives the `psconvert` format code from
the file name's extension — `.png` is format `g` (a PNG), `.pdf` is format `f`
(a PDF). -/
def extFormat (ext : String) : Option String :=
  if ext = "png" then some "g"
  else if ext = "pdf" then some "f"
  else none

/-- The format code a `savefig` call derives from its file name. -/
def savefigFormat (fname : String) : Option String :=
  (splitExt fname).bind (fun p => extFormat p.2)

/-- `fig.savefig(fname)`: derive stem and format from the file name and
delegate to `psconvert`. -/
def Figure.savefig (fig : Figure) (fname : String) :
    List Invocation × Option String :=
  match splitExt fname with
  | some (stem, ext) =>
    match extFormat ext with
    | some fmt => fig.psconvert [("prefix", .str stem), ("fmt", .str fmt)]
    | none => (fig.commands, none)
  | none => (fig.commands, none)

/-! ## Session state: the implicit current figure -/

/-- Modelled from the spec: the whole wrapper state between public calls —
the figure handles created so far (in creation order; the implicit current
figure is the most recently created one) and the output files written. -/
structure Session where
  figures : List Figure
  files : List String
deriving DecidableEq, Repr

/-- A fresh session: no figures, no output files. -/
def Session.empty : Session := ⟨[], []⟩

/-- `gmt.figure()` (or creating a new `Figure`): append a fresh handle, which
becomes the most recently created and hence the current one. -/
def Session.newFigure (s : Session) : Session :=
  ⟨s.figures ++ [Figure.new], s.files⟩

/-- The implicit current-figure context: the index of the most recently
created handle, when one exists. -/
def Session.current (s : Session) : Option Nat :=
  if s.figures.isEmpty then none else some (s.figures.length - 1)

/-- A drawing-method call on the handle at index `h`: only that figure's
accumulated command list changes. -/
def Session.drawOn (s : Session) (h : Nat) (c : DrawCall) : Session :=
  ⟨s.figures.set h ((s.figures.getD h Figure.new).applyCall c), s.files⟩

/-- A module-level drawing call naming no handle: it applies to the implicit
current figure. -/
def Session.draw (s : Session) (c : DrawCall) : Session :=
  match s.current with
  | some h => s.drawOn h c
  | none => s

/-- `fig.show()`: display a preview of the handle at index `h`; it writes no
figure file and changes no wrapper state. -/
def Session.showFig (s : Session) (_h : Nat) : Session :=
  s

/-- `psconvert` on the handle at index `h`: the figures are untouched and the
output file, when the arguments name one, is written. -/
def Session.psconvertOn (s : Session) (_h : Nat) (args : List (String × Value)) :
    Session :=
  match psconvertFile args with
  | some f => ⟨s.figures, s.files ++ [f]⟩
  | none => ⟨s.figures, s.files⟩

/-- What converting the handle at index `h` yields: the invocation sequence
forwarded to the toolkit and the output file produced.  It depends only on
that handle's accumulated commands and on the `psconvert` arguments. -/
def Session.convertResult (s : Session) (h : Nat) (args : List (String × Value)) :
    List Invocation × Option String :=
  (s.figures.getD h Figure.new).psconvert args

/-- Module-level `gmt.psconvert(...)` naming no handle: it converts the
implicit current figure. -/
def Session.convert (s : Session) (args : List (String × Value)) : Session :=
  match s.current with
  | some h => s.psconvertOn h args
  | none => s

/-- What a module-level conversion naming no handle yields: the conversion
result of the implicit current figure — the forwarded invocations and the
output file. -/
def Session.convertCurrent (s : Session) (args : List (String × Value)) :
    List Invocation × Option String :=
  match s.current with
  | some h => s.convertResult h args
  | none => ([], none)

/-- The wrapper calls that do not convert a figure: creating a figure,
drawing (module-level or on a handle) and showing a preview. -/
inductive NonOutputOp where
  | newFigure
  | draw (c : DrawCall)
  | drawOn (h : Nat) (c : DrawCall)
  | showFig (h : Nat)
deriving DecidableEq, Repr

/-- Apply one non-converting wrapper call to the session. -/
def Session.applyOp (s : Session) : NonOutputOp → Session
  | .newFigure => s.newFigure
  | .draw c => s.draw c
  | .drawOn h c => s.drawOn h c
  | .showFig h => s.showFig h

/-- Apply a sequence of non-converting wrapper calls, in order. -/
def Session.applyOps (s : Session) (ops : List NonOutputOp) : Session :=
  ops.foldl Session.applyOp s

/-! ## Invoking the external toolkit -/

/-- An error reported by the external toolkit: its exit code and message. -/
structure GmtError where
  exitCode : Nat
  message : String
deriving DecidableEq, Repr

/-- Modelled from the spec: running one wrapper operation against the external
toolkit (given as an arbitrary behaviour `toolkit`).  The wrapper builds the
translated invocation, runs the toolkit on it exactly once, checks the exit
status and returns the toolkit's own result — its error, exit code and message
untouched, with no retry or recovery.  The second component records every
invocation the wrapper issued. -/
def runModule (toolkit : Invocation → Except GmtError Unit)
    (m : String) (args : List (String × Value)) :
    Except GmtError Unit × List Invocation :=
  let inv : Invocation := ⟨m, translateArgs args⟩
  (toolkit inv, [inv])

/-! ## Helper lemmas -/

/-- Each drawing call appends exactly its translated invocation. -/
lemma Figure.commands_applyCall (fig : Figure) (c : DrawCall) :
    (fig.applyCall c).commands = fig.commands ++ [c.invocation] := by
  cases c <;> rfl

/-- A sequence of drawing calls appends exactly the translated invocations,
in order. -/
lemma Figure.commands_applyAll (fig : Figure) (calls : List DrawCall) :
    (fig.applyAll calls).commands = fig.commands ++ calls.map DrawCall.invocation := by
  induction calls generalizing fig with
  | nil => simp [Figure.applyAll]
  | cons c cs ih =>
    rw [Figure.applyAll, List.foldl_cons, ← Figure.applyAll, ih,
      Figure.commands_applyCall]
    simp

/-- Every non-converting wrapper call leaves the written files unchanged. -/
lemma Session.files_applyOp (s : Session) (op : NonOutputOp) :
    (s.applyOp op).files = s.files := by
  cases op with
  | newFigure => rfl
  | draw c =>
    show (s.draw c).files = s.files
    unfold Session.draw
    cases s.current <;> rfl
  | drawOn h c => rfl
  | showFig h => rfl

/-- `getD` of a figure list is determined by `getElem?`. -/
lemma Session.figures_getD_eq (l : List Figure) (i : Nat) :
    l.getD i Figure.new = (l[i]?).getD Figure.new :=
  List.getD_eq_getElem?_getD l i Figure.new

/-! ## The claims -/

/-- C1: every plotting or conversion operation (`pscoast`, `psxy`,
`psconvert`, `psbasemap`) with any argument map invokes exactly the
corresponding external toolkit module, the arguments passed through unchanged
except for the translation of keyword aliases into command-line flag syntax;
the wrapper performs no other computation — the figure gains exactly that one
invocation and nothing else changes. -/
theorem C1_direct_passthrough (fig : Figure) (args : List (String × Value)) :
    (fig.pscoast args).commands
        = fig.commands ++ [Invocation.mk "pscoast" (translateArgs args)] ∧
    (fig.psxy args).commands
        = fig.commands ++ [Invocation.mk "psxy" (translateArgs args)] ∧
    (fig.psbasemap args).commands
        = fig.commands ++ [Invocation.mk "psbasemap" (translateArgs args)] ∧
    (fig.psconvert args).1
        = fig.commands ++ [Invocation.mk "psconvert" (translateArgs args)] :=
  ⟨rfl, rfl, rfl, rfl⟩

/-- C2: a figure handle accumulates exactly the drawing-command invocations
made on it, in call order, and forwards them verbatim — without reordering,
dropping or rewriting — to the external mapping toolkit. -/
theorem C2_accumulate_forward_verbatim (fig : Figure) (calls : List DrawCall) :
    (fig.applyAll calls).commands
        = fig.commands ++ calls.map DrawCall.invocation ∧
    (Figure.new.applyAll calls).forward = calls.map DrawCall.invocation := by
  refine ⟨Figure.commands_applyAll fig calls, ?_⟩
  rw [Figure.forward, Figure.commands_applyAll]
  rfl

/-- C4: keyword values of type string, number, list or boolean are translated
into command-line flag syntax: a list such as `[-90, -70, 0, 20]` is rendered
in the slash-separated string form the toolkit expects, and a `True` value
for an option-less argument is rendered as the bare flag (such as `-P`). -/
theorem C4_value_translation (flag s : String) (n : Int) (xs : List Int) :
    buildFlag flag (Value.str s) = some ("-" ++ flag ++ s) ∧
    buildFlag flag (Value.num n) = some ("-" ++ flag ++ toString n) ∧
    buildFlag flag (Value.list xs) = some ("-" ++ flag ++ renderList xs) ∧
    buildFlag flag (Value.boolean true) = some ("-" ++ flag) ∧
    renderList [-90, -70, 0, 20] = "-90/-70/0/20" ∧
    translateArg "region" (Value.list [-90, -70, 0, 20])
        = translateArg "R" (Value.str "-90/-70/0/20") ∧
    translateArg "portrait" (Value.boolean true) = some "-P" :=
  ⟨rfl, rfl, rfl, rfl, rfl, rfl, rfl⟩

/-- C6: the wrapper runs the external module exactly once, checks its exit
status, and returns the toolkit's own result — on failure the toolkit's exit
code and error message are propagated untouched, an operation fails if and
only if the toolkit reports failure, and no retry or recovery is attempted. -/
theorem C6_error_propagation (toolkit : Invocation → Except GmtError Unit)
    (m : String) (args : List (String × Value)) :
    (runModule toolkit m args).1 = toolkit (Invocation.mk m (translateArgs args)) ∧
    (runModule toolkit m args).2 = [Invocation.mk m (translateArgs args)] ∧
    ((runModule toolkit m args).1.isOk
        ↔ (toolkit (Invocation.mk m (translateArgs args))).isOk) :=
  ⟨rfl, rfl, Iff.rfl⟩

/-- C3: for every operation and argument value, a call with the short
single-letter GMT flag (`R`, `J`, `G`, `B`, `W`, `i`, ...) produces the same
translated external-toolkit command as a call with the corresponding long-form
alias (`region`, `projection`, `land`, `frame`, `pen`, `columns`, ...); the
alias translation is a pure dictionary lookup with no other effect on the
call. -/
theorem C3_alias_equivalence (long short : String)
    (h : (long, short) ∈ aliases) (v : Value) (m : String) (fig : Figure) :
    translateArg long v = translateArg short v ∧
    fig.callModule m [(long, v)] = fig.callModule m [(short, v)] := by
  simp only [aliases, List.mem_cons, List.not_mem_nil, or_false,
    Prod.mk.injEq] at h
  rcases h with ⟨rfl, rfl⟩ | ⟨rfl, rfl⟩ | ⟨rfl, rfl⟩ | ⟨rfl, rfl⟩ | ⟨rfl, rfl⟩ |
    ⟨rfl, rfl⟩ | ⟨rfl, rfl⟩ | ⟨rfl, rfl⟩ | ⟨rfl, rfl⟩ <;>
    exact ⟨rfl, rfl⟩

/-- Witness for C3: at the concrete alias pair (`region`, `R`) and the value
"g", both spellings of the `pscoast` call translate identically. -/
theorem C3_alias_equivalence_witness :
    ("region", "R") ∈ aliases ∧
    (translateArg "region" (Value.str "g") = translateArg "R" (Value.str "g") ∧
      Figure.new.callModule "pscoast" [("region", Value.str "g")]
        = Figure.new.callModule "pscoast" [("R", Value.str "g")]) :=
  ⟨by decide,
    C3_alias_equivalence "region" "R" (by decide) (Value.str "g") "pscoast"
      Figure.new⟩

/-- C5: after `gmt.figure()` (creating a new `Figure`), the implicit current
figure is the most recently created handle: a module-level drawing call that
names no handle applies to that newest figure and changes no other, and a
module-level conversion call that names no handle converts exactly that
newest figure — it is the newest handle's conversion, its result is the fresh
figure's, and it touches no figure handle at all. -/
theorem C5_current_is_newest (s : Session) (c : DrawCall)
    (args : List (String × Value)) (h : Nat) (hne : h ≠ s.figures.length) :
    (s.newFigure).current = some s.figures.length ∧
    ((s.newFigure).draw c).figures[s.figures.length]?
        = some (Figure.new.applyCall c) ∧
    ((s.newFigure).draw c).figures[h]? = (s.newFigure).figures[h]? ∧
    (s.newFigure).convert args = (s.newFigure).psconvertOn s.figures.length args ∧
    (s.newFigure).convertCurrent args
        = (s.newFigure).convertResult s.figures.length args ∧
    (s.newFigure).convertCurrent args = Figure.new.psconvert args ∧
    ((s.newFigure).convert args).figures = (s.newFigure).figures := by
  have hcur : (s.newFigure).current = some s.figures.length := by
    simp [Session.newFigure, Session.current]
  have hdraw : (s.newFigure).draw c = (s.newFigure).drawOn s.figures.length c := by
    rw [Session.draw, hcur]
  have hgetD : (s.figures ++ [Figure.new]).getD s.figures.length Figure.new
      = Figure.new := by
    rw [Session.figures_getD_eq, List.getElem?_concat_length]
    rfl
  refine ⟨hcur, ?_, ?_, ?_, ?_, ?_, ?_⟩
  · rw [hdraw]
    simp only [Session.drawOn, Session.newFigure]
    rw [hgetD]
    exact List.getElem?_set_eq_of_lt _ (by simp)
  · rw [hdraw]
    simp only [Session.drawOn, Session.newFigure]
    exact List.getElem?_set_ne (Ne.symm hne)
  · rw [Session.convert, hcur]
  · rw [Session.convertCurrent, hcur]
  · rw [Session.convertCurrent, hcur]
    show ((s.figures ++ [Figure.new]).getD s.figures.length Figure.new).psconvert args
        = Figure.new.psconvert args
    rw [hgetD]
  · rw [Session.convert, hcur]
    show ((s.newFigure).psconvertOn s.figures.length args).figures
        = (s.newFigure).figures
    rw [Session.psconvertOn]
    cases psconvertFile args <;> rfl

/-- Witness for C5: in the empty session, after creating a figure the current
index is 0, a module-level `pscoast` call lands on that figure and leaves
index 5 untouched, and the module-level `psconvert` from the notebook
(F equal to "myfigure", T equal to "g") converts exactly that figure. -/
theorem C5_current_is_newest_witness :
    (5 ≠ Session.empty.figures.length) ∧
    ((Session.empty.newFigure).current = some 0 ∧
      ((Session.empty.newFigure).draw (DrawCall.pscoast [])).figures[0]?
          = some (Figure.new.applyCall (DrawCall.pscoast [])) ∧
      ((Session.empty.newFigure).draw (DrawCall.pscoast [])).figures[5]?
          = (Session.empty.newFigure).figures[5]? ∧
      (Session.empty.newFigure).convert
            [("F", Value.str "myfigure"), ("T", Value.str "g")]
          = (Session.empty.newFigure).psconvertOn 0
            [("F", Value.str "myfigure"), ("T", Value.str "g")] ∧
      (Session.empty.newFigure).convertCurrent
            [("F", Value.str "myfigure"), ("T", Value.str "g")]
          = (Session.empty.newFigure).convertResult 0
            [("F", Value.str "myfigure"), ("T", Value.str "g")] ∧
      (Session.empty.newFigure).convertCurrent
            [("F", Value.str "myfigure"), ("T", Value.str "g")]
          = Figure.new.psconvert
            [("F", Value.str "myfigure"), ("T", Value.str "g")] ∧
      ((Session.empty.newFigure).convert
            [("F", Value.str "myfigure"), ("T", Value.str "g")]).figures
          = (Session.empty.newFigure).figures) :=
  ⟨by decide,
    C5_current_is_newest Session.empty (DrawCall.pscoast [])
      [("F", Value.str "myfigure"), ("T", Value.str "g")] 5 (by decide)⟩

/-- C7: between any two consecutive public calls, the only wrapper state that
changes is the implicit current-figure context and the drawn-on handle's
accumulated command sequence: creating a figure leaves the files and every
existing handle unchanged, drawing on a handle leaves the files and every
other handle unchanged, showing changes nothing, and converting leaves every
handle unchanged. -/
theorem C7_frame_condition (s : Session) (c : DrawCall)
    (args : List (String × Value)) (h h' : Nat)
    (hlt : h < s.figures.length) (hne : h' ≠ h) :
    (s.newFigure).files = s.files ∧
    (s.newFigure).figures[h]? = s.figures[h]? ∧
    (s.drawOn h c).files = s.files ∧
    (s.drawOn h c).figures[h']? = s.figures[h']? ∧
    (s.draw c).files = s.files ∧
    s.showFig h = s ∧
    (s.psconvertOn h args).figures = s.figures := by
  refine ⟨rfl, List.getElem?_append_left hlt, rfl, ?_, ?_, rfl, ?_⟩
  · simp only [Session.drawOn]
    exact List.getElem?_set_ne (Ne.symm hne)
  · rw [Session.draw]
    cases s.current <;> rfl
  · rw [Session.psconvertOn]
    cases psconvertFile args <;> rfl

/-- Witness for C7: a one-figure session, drawing on handle 0; handle 1 and
the files are untouched by each call. -/
theorem C7_frame_condition_witness :
    (0 < (Session.empty.newFigure).figures.length ∧
      1 ≠ (0 : Nat)) ∧
    ((Session.empty.newFigure).newFigure.files = (Session.empty.newFigure).files ∧
      (Session.empty.newFigure).newFigure.figures[0]?
          = (Session.empty.newFigure).figures[0]? ∧
      ((Session.empty.newFigure).drawOn 0 (DrawCall.psxy [])).files
          = (Session.empty.newFigure).files ∧
      ((Session.empty.newFigure).drawOn 0 (DrawCall.psxy [])).figures[1]?
          = (Session.empty.newFigure).figures[1]? ∧
      ((Session.empty.newFigure).draw (DrawCall.psxy [])).files
          = (Session.empty.newFigure).files ∧
      (Session.empty.newFigure).showFig 0 = Session.empty.newFigure ∧
      ((Session.empty.newFigure).psconvertOn 0 []).figures
          = (Session.empty.newFigure).figures) :=
  ⟨⟨by decide, by decide⟩,
    C7_frame_condition (Session.empty.newFigure) (DrawCall.psxy []) [] 0 1
      (by decide) (by decide)⟩

/-- C8: drawing-method calls (`pscoast`, `psxy`, `psbasemap`, module-level
drawing, `show`, creating figures) never create a figure file; only a
`psconvert` (and thus `savefig`, which delegates to it) produces an output
file, namely the one its arguments name. -/
theorem C8_no_file_until_convert (s : Session) (ops : List NonOutputOp)
    (h : Nat) (args : List (String × Value)) :
    (s.applyOps ops).files = s.files ∧
    (s.psconvertOn h args).files = s.files ++ (psconvertFile args).toList := by
  constructor
  · induction ops generalizing s with
    | nil => rfl
    | cons op ops ih =>
      rw [Session.applyOps, List.foldl_cons, ← Session.applyOps, ih,
        Session.files_applyOp]
  · rw [Session.psconvertOn]
    cases psconvertFile args <;> simp

/-- C9: operations on, or creation of, another handle never alter an existing
figure handle: its entry and therefore the result of converting it with
`psconvert` are the same after the other handle was created or drawn on as
before. -/
theorem C9_independent_handles (s : Session) (f g : Nat) (c : DrawCall)
    (args : List (String × Value)) (hf : f < s.figures.length) (hg : g ≠ f) :
    (s.newFigure).figures[f]? = s.figures[f]? ∧
    (s.newFigure).convertResult f args = s.convertResult f args ∧
    (s.drawOn g c).figures[f]? = s.figures[f]? ∧
    (s.drawOn g c).convertResult f args = s.convertResult f args := by
  have h1 : (s.newFigure).figures[f]? = s.figures[f]? :=
    List.getElem?_append_left hf
  have h2 : (s.drawOn g c).figures[f]? = s.figures[f]? := by
    simp only [Session.drawOn]
    exact List.getElem?_set_ne hg
  refine ⟨h1, ?_, h2, ?_⟩
  · rw [Session.convertResult, Session.convertResult, Session.figures_getD_eq,
      Session.figures_getD_eq, h1]
  · rw [Session.convertResult, Session.convertResult, Session.figures_getD_eq,
      Session.figures_getD_eq, h2]

/-- Witness for C9: with one figure at index 0, creating a second handle and
drawing on it leaves figure 0 and its conversion result unchanged. -/
theorem C9_independent_handles_witness :
    (0 < (Session.empty.newFigure).figures.length ∧ 1 ≠ (0 : Nat)) ∧
    ((Session.empty.newFigure).newFigure.figures[0]?
        = (Session.empty.newFigure).figures[0]? ∧
      (Session.empty.newFigure).newFigure.convertResult 0 []
        = (Session.empty.newFigure).convertResult 0 [] ∧
      ((Session.empty.newFigure).drawOn 1 (DrawCall.pscoast [])).figures[0]?
        = (Session.empty.newFigure).figures[0]? ∧
      ((Session.empty.newFigure).drawOn 1 (DrawCall.pscoast [])).convertResult 0 []
        = (Session.empty.newFigure).convertResult 0 []) :=
  ⟨⟨by decide, by decide⟩,
    C9_independent_handles (Session.empty.newFigure) 0 1 (DrawCall.pscoast []) []
      (by decide) (by decide)⟩

/-- Splitting a file name that ends in ".png" yields the stem and the png
extension. -/
lemma splitExt_append_png (l : List Char) :
    splitExt (String.mk l ++ ".png") = some (String.mk l, "png") := by
  have hdata : (String.mk l ++ ".png").data = l ++ ['.', 'p', 'n', 'g'] := rfl
  have hrev : (l ++ ['.', 'p', 'n', 'g']).reverse
      = 'g' :: 'n' :: 'p' :: '.' :: l.reverse := by simp
  unfold splitExt
  rw [hdata, hrev]
  simp [splitAtDot]

/-- C10: the output format of a conversion is determined by its format
argument: `psconvert` with `fmt` (alias `T`) equal to `f` produces the PDF
file stem + ".pdf", with `T` equal to `g` the PNG file stem + ".png", and
`savefig` derives the format from the file name's extension — a ".png" name
yields format `g` and produces that PNG file. -/
theorem C10_output_format (fig : Figure) (stem : String) (l : List Char) :
    (fig.psconvert [("prefix", Value.str stem), ("fmt", Value.str "f")]).2
        = some (stem ++ ".pdf") ∧
    (fig.psconvert [("F", Value.str stem), ("T", Value.str "f")]).2
        = some (stem ++ ".pdf") ∧
    (fig.psconvert [("F", Value.str stem), ("T", Value.str "g")]).2
        = some (stem ++ ".png") ∧
    savefigFormat (String.mk l ++ ".png") = some "g" ∧
    (fig.savefig (String.mk l ++ ".png")).2 = some (String.mk l ++ ".png") := by
  refine ⟨rfl, rfl, rfl, ?_, ?_⟩
  · rw [savefigFormat, splitExt_append_png]
    rfl
  · rw [Figure.savefig, splitExt_append_png]
    rfl

end Gmt
